import Mathlib

set_option maxRecDepth 8000

/-!
Shallow embedding of the V430-F camera-trigger driver (`src/scanner.ts`).

Modelling conventions:
* Byte buffers and JS strings are modelled as `List Char`; the driver's data
  is ASCII, where UTF-8 decoding is the identity, so one char stands for one
  byte.
* The decode step of `V430F_Driver.captureResult` (scanner.ts:131-237) is a
  pure function of the inbound buffer; a JS `TypeError` (reading a property
  of `undefined`) is modelled as the `crash` outcome.
* The driver object state (`_sock`, `_captureTimeout`, `_targetPattern`) is a
  record; each async method is modelled run-to-completion, matching the
  single-threaded cooperative scheduling of the runtime, with the wire
  commands it writes returned as a list.  `connect()` is modelled as always
  succeeding (the source resolves its promise only on success and installs no
  error handler).
* Distance statistics (`timedReportCallback`, scanner.ts:242-268) use `ℚ` in
  place of IEEE doubles; the emitted second statistic is the variance
  `sumsq/n - avg²`, of which the source takes `Math.sqrt` to obtain the
  standard deviation.
-/

/-- Character list of a string literal (a JS string / ASCII byte buffer). -/
def chars (s : String) : List Char := s.data

/-- JS `String.prototype.trim` whitespace test, restricted to the ASCII range
(the only characters the device produces). -/
def isJsWs (c : Char) : Bool :=
  c == ' ' || c == '\t' || c == '\n' || c == '\r' || c == '\x0b' || c == '\x0c'

/-- JS `s.trim()`: drop whitespace from both ends. -/
def jsTrim (l : List Char) : List Char :=
  ((l.dropWhile isJsWs).reverse.dropWhile isJsWs).reverse

/-- Control bytes stripped from the end of the buffer before segmentation:
EOT, CR, LF, RS (scanner.ts:151). -/
def isCtlByte (c : Char) : Bool :=
  c == '\x04' || c == '\x0d' || c == '\x0a' || c == '\x1e'

/-- The `while(endpos > 0 && [4,13,10,30].includes(data[endpos-1])) endpos--;`
loop of scanner.ts:151-153: remove the trailing run of control bytes. -/
def stripCtl (l : List Char) : List Char :=
  (l.reverse.dropWhile isCtlByte).reverse

/-- JS `field.replace(/\u001e/g, '<RS>')` (scanner.ts:157). -/
def replRS (l : List Char) : List Char :=
  (l.map (fun c => if c == '\x1e' then chars "<RS>" else [c])).flatten

/-- Segmentation on the group separator 0x1d, exactly as the do/while loop of
scanner.ts:154-222 slices the buffer: a separator in final position ends the
loop without emitting a final empty segment (because `prevpos = pos + 1`
reaches `endpos`), while an empty input still yields one empty segment (the
body runs at least once). -/
def segSplit : List Char → List Char → List (List Char)
  | [], acc => [acc.reverse]
  | [c], acc => if c == '\x1d' then [acc.reverse] else [(c :: acc).reverse]
  | c :: rest, acc =>
      if c == '\x1d' then acc.reverse :: segSplit rest [] else segSplit rest (c :: acc)

/-- JS `field.split('|')` (scanner.ts:160): unlike `segSplit`, a trailing
separator does produce a final empty part. -/
def splitBar : List Char → List Char → List (List Char)
  | [], acc => [acc.reverse]
  | c :: rest, acc =>
      if c == '|' then acc.reverse :: splitBar rest [] else splitBar rest (c :: acc)

/-- JS `s.indexOf(pat) >= 0`: `pat` occurs as a contiguous run inside `l`. -/
def containsSeq (pat : List Char) : List Char → Bool
  | [] => pat.isEmpty
  | c :: rest => (c :: rest).take pat.length == pat || containsSeq pat rest

/-- Per-segment preprocessing `.trim().replace(/\u001e/g,'<RS>')`
(scanner.ts:157). -/
def mkField (seg : List Char) : List Char := replRS (jsTrim seg)

/-- The list of preprocessed fields obtained from an inbound buffer
(scanner.ts:148-157). -/
def segFields (data : List Char) : List (List Char) :=
  (segSplit (stripCtl data) []).map mkField

/-- The failure test of scanner.ts:133,137:
`result == '' || result.indexOf('NOREAD') >= 0` on the trimmed buffer. -/
def isFailureBuf (data : List Char) : Bool :=
  jsTrim data == [] || containsSeq (chars "NOREAD") (jsTrim data)

/-- The enumerated keys of the decoded field mapping. -/
inductive FieldKey
  | mfg_pn | manufacturer | traceability | coo | product | qty | serial | date_code
  | distributor | order_no | line_no | invoice_no | pick | part_id | load_id
  | signature | unknown
  deriving DecidableEq

/-- The decoded field mapping (`fields` object of scanner.ts:147), one
optional slot per enumerated key. -/
structure Fields where
  mfg_pn : Option (List Char) := none
  manufacturer : Option (List Char) := none
  traceability : Option (List Char) := none
  coo : Option (List Char) := none
  product : Option (List Char) := none
  qty : Option (List Char) := none
  serial : Option (List Char) := none
  date_code : Option (List Char) := none
  distributor : Option (List Char) := none
  order_no : Option (List Char) := none
  line_no : Option (List Char) := none
  invoice_no : Option (List Char) := none
  pick : Option (List Char) := none
  part_id : Option (List Char) := none
  load_id : Option (List Char) := none
  signature : Option (List Char) := none
  unknown : Option (List Char) := none
  deriving DecidableEq

/-- The empty field mapping `{}`. -/
def emptyFields : Fields := {}

/-- Assignment `fields[k] = v`. -/
def setField (f : Fields) : FieldKey → List Char → Fields
  | .mfg_pn, v => { f with mfg_pn := some v }
  | .manufacturer, v => { f with manufacturer := some v }
  | .traceability, v => { f with traceability := some v }
  | .coo, v => { f with coo := some v }
  | .product, v => { f with product := some v }
  | .qty, v => { f with qty := some v }
  | .serial, v => { f with serial := some v }
  | .date_code, v => { f with date_code := some v }
  | .distributor, v => { f with distributor := some v }
  | .order_no, v => { f with order_no := some v }
  | .line_no, v => { f with line_no := some v }
  | .invoice_no, v => { f with invoice_no := some v }
  | .pick, v => { f with pick := some v }
  | .part_id, v => { f with part_id := some v }
  | .load_id, v => { f with load_id := some v }
  | .signature, v => { f with signature := some v }
  | .unknown, v => { f with unknown := some v }

/-- Lookup `fields[k]`. -/
def getField (f : Fields) : FieldKey → Option (List Char)
  | .mfg_pn => f.mfg_pn
  | .manufacturer => f.manufacturer
  | .traceability => f.traceability
  | .coo => f.coo
  | .product => f.product
  | .qty => f.qty
  | .serial => f.serial
  | .date_code => f.date_code
  | .distributor => f.distributor
  | .order_no => f.order_no
  | .line_no => f.line_no
  | .invoice_no => f.invoice_no
  | .pick => f.pick
  | .part_id => f.part_id
  | .load_id => f.load_id
  | .signature => f.signature
  | .unknown => f.unknown

/-- Rule 1 guard: `field.slice(0,4) == 'GWCR'` (scanner.ts:158). -/
def cGWCR (s : List Char) : Bool := s.take 4 == chars "GWCR"

/-- Rule 2 guard: `field.indexOf('[)>') >= 0` (scanner.ts:166). -/
def cSig (s : List Char) : Bool := containsSeq (chars "[)>") s

/-- Rule 3 guard: `field.slice(0,2) == '1P'` (scanner.ts:169). -/
def c1P (s : List Char) : Bool := s.take 2 == chars "1P"

/-- Rule 4 guard: `field.slice(0,2) == '1V'` (scanner.ts:171). -/
def c1V (s : List Char) : Bool := s.take 2 == chars "1V"

/-- Rule 5 guard: `field.slice(0,2) == '1T'` (scanner.ts:173). -/
def c1T (s : List Char) : Bool := s.take 2 == chars "1T"

/-- Rule 6 guard: `field.slice(0,2) == '4L'` (scanner.ts:175). -/
def c4L (s : List Char) : Bool := s.take 2 == chars "4L"

/-- Rule 7 guard: `field[0] == 'P'` (scanner.ts:177). -/
def cP (s : List Char) : Bool := s.take 1 == chars "P"

/-- Rule 8 guard: `field[0] == 'Q'` (scanner.ts:179). -/
def cQ (s : List Char) : Bool := s.take 1 == chars "Q"

/-- Rule 9 guard: `field[0] == 'S'` (scanner.ts:181). -/
def cS (s : List Char) : Bool := s.take 1 == chars "S"

/-- Rule 10 guard: `field.slice(0,2).match(/[4-9]D/)` (scanner.ts:183); the
unanchored two-character pattern can match a slice of length at most two only
at position 0. -/
def cD2 (s : List Char) : Bool :=
  match s with
  | a :: b :: _ => (decide ('4' ≤ a) && decide (a ≤ '9')) && b == 'D'
  | _ => false

/-- Rule 11 guard: `field.slice(0,3).match(/1[0-6]D/)` (scanner.ts:185). -/
def cD3 (s : List Char) : Bool :=
  match s with
  | a :: b :: c :: _ => a == '1' && (decide ('0' ≤ b) && decide (b ≤ '6')) && c == 'D'
  | _ => false

/-- Rule 12 guard: `field[0] == 'K'` (scanner.ts:187). -/
def cK (s : List Char) : Bool := s.take 1 == chars "K"

/-- Digi-Key context guard: `fields['distributor'] == 'Digi-Key'`
(scanner.ts:194). -/
def cDK (f : Fields) : Bool := f.distributor == some (chars "Digi-Key")

/-- Digi-Key context: `field.slice(0,2) == '1K'` (scanner.ts:195). -/
def cDK1K (s : List Char) : Bool := s.take 2 == chars "1K"

/-- Digi-Key context: `field.slice(0,3) == '4K'` (scanner.ts:197) — note the
three-character slice compared against a two-character literal. -/
def cDK4K (s : List Char) : Bool := s.take 3 == chars "4K"

/-- Digi-Key context: `field.slice(0,3) == '10K'` (scanner.ts:199). -/
def cDK10K (s : List Char) : Bool := s.take 3 == chars "10K"

/-- Digi-Key context: `field.slice(0,3) == '11K'` (scanner.ts:201). -/
def cDK11K (s : List Char) : Bool := s.take 3 == chars "11K"

/-- Digi-Key context: `field.slice(0,3) == '11Z'` (scanner.ts:203). -/
def cDK11Z (s : List Char) : Bool := s.take 3 == chars "11Z"

/-- Digi-Key context: `field.slice(0,3) == '12Z'` (scanner.ts:205). -/
def cDK12Z (s : List Char) : Bool := s.take 3 == chars "12Z"

/-- Digi-Key context: `field.slice(0,3) == '13Z'` (scanner.ts:207). -/
def cDK13Z (s : List Char) : Bool := s.take 3 == chars "13Z"

/-- Digi-Key context: `field.slice(0,3) == '20Z'` (scanner.ts:209). -/
def cDK20Z (s : List Char) : Bool := s.take 3 == chars "20Z"

/-- Rule 14 guard: `field.slice(0,3) == '11K'` outside the Digi-Key context
(scanner.ts:212). -/
def c11K (s : List Char) : Bool := s.take 3 == chars "11K"

/-- Rule 15 guard: `field.slice(0,3) == '14K'` (scanner.ts:215). -/
def c14K (s : List Char) : Bool := s.take 3 == chars "14K"

/-- The assignments performed on one preprocessed segment by the if/else
chain of scanner.ts:158-220, in execution order; `none` models the JS
`TypeError` raised by `parts[3].slice(5,7)` when the `GWCR` pipe-split has
fewer than four parts. -/
def writesOf (f : Fields) (s : List Char) : Option (List (FieldKey × List Char)) :=
  if cGWCR s then
    match splitBar s [] with
    | p0 :: p1 :: p2 :: p3 :: _ =>
        some [(FieldKey.mfg_pn, p0), (FieldKey.qty, p1), (FieldKey.date_code, p2),
              (FieldKey.coo, (p3.drop 5).take 2), (FieldKey.traceability, p3.drop 7)]
    | _ => none
  else if cSig s then some [(FieldKey.signature, s)]
  else if c1P s then some [(FieldKey.mfg_pn, s.drop 2)]
  else if c1V s then some [(FieldKey.manufacturer, s.drop 2)]
  else if c1T s then some [(FieldKey.traceability, s.drop 2)]
  else if c4L s then some [(FieldKey.coo, s.drop 2)]
  else if cP s then some [(FieldKey.product, s.drop 1)]
  else if cQ s then some [(FieldKey.qty, s.drop 1)]
  else if cS s then some [(FieldKey.serial, s.drop 1)]
  else if cD2 s then some [(FieldKey.date_code, s.drop 2)]
  else if cD3 s then some [(FieldKey.date_code, s.drop 3)]
  else if cK s then
    (if s.length == 1 then some [(FieldKey.distributor, chars "Digi-Key")]
     else some [(FieldKey.order_no, s.drop 1)])
  else if cDK f then
    (if cDK1K s then some [(FieldKey.order_no, s.drop 2)]
     else if cDK4K s then some [(FieldKey.line_no, s.drop 2)]
     else if cDK10K s then some [(FieldKey.invoice_no, s.drop 3)]
     else if cDK11K s then some [(FieldKey.line_no, s.drop 3)]
     else if cDK11Z s then some [(FieldKey.pick, s.drop 3)]
     else if cDK12Z s then some [(FieldKey.part_id, s.drop 3)]
     else if cDK13Z s then some [(FieldKey.load_id, s.drop 3)]
     else if cDK20Z s then some []
     else some [])
  else if c11K s then some [(FieldKey.invoice_no, s.drop 3)]
  else if c14K s then some [(FieldKey.line_no, s.drop 3)]
  else some [(FieldKey.unknown, s)]

/-- Apply a list of assignments to a field mapping, in order. -/
def applyWrites (f : Fields) (ws : List (FieldKey × List Char)) : Fields :=
  ws.foldl (fun f w => setField f w.1 w.2) f

/-- Process the segments in order, accumulating the field mapping and the
full assignment trace; `none` models the decode aborting on a JS exception. -/
def runSegments (f : Fields) : List (List Char) → Option (Fields × List (FieldKey × List Char))
  | [] => some (f, [])
  | s :: rest =>
      match writesOf f s with
      | none => none
      | some w =>
          (runSegments (applyWrites f w) rest).map (fun p => (p.1, w ++ p.2))

/-- The value of the last assignment to key `k` in a trace, if any. -/
def lastWrite : List (FieldKey × List Char) → FieldKey → Option (List Char)
  | [], _ => none
  | w :: ws, k =>
      match lastWrite ws k with
      | some v => some v
      | none => if w.1 = k then some w.2 else none

/-- Outcome of decoding one inbound buffer: `crash` is a raised JS exception,
`failure` the empty-or-NOREAD early return with an empty field mapping, and
`ok` carries the final mapping together with the assignment trace. -/
inductive DecodeOutcome
  | crash
  | failure
  | ok (f : Fields) (ws : List (FieldKey × List Char))
  deriving DecidableEq

/-- The pure decode step of `V430F_Driver.captureResult` (scanner.ts:131-222)
as a function of the inbound buffer. -/
def decodeBuffer (data : List Char) : DecodeOutcome :=
  if isFailureBuf data then DecodeOutcome.failure
  else
    match runSegments emptyFields (segFields data) with
    | none => DecodeOutcome.crash
    | some (f, ws) => DecodeOutcome.ok f ws

/-- The final field mapping of a successful decode. -/
def okFields : DecodeOutcome → Option Fields
  | DecodeOutcome.ok f _ => some f
  | _ => none

/-- The assignment trace of a successful decode (empty otherwise). -/
def okWrites : DecodeOutcome → List (FieldKey × List Char)
  | DecodeOutcome.ok _ ws => ws
  | _ => []

/-- Observable state of the `V430F_Driver` object: whether `_sock` is
non-null, whether the `_captureTimeout` field is non-null (the JS truthiness
test used by the guards), and the last commanded `_targetPattern` value. -/
structure DriverState where
  connected : Bool
  captureTimeoutSet : Bool
  targetPattern : Option Bool
  deriving DecidableEq

/-- Framed text commands written to the camera socket: `'< >'` and
`'<l1>'`/`'<l0>'`. -/
inductive WireCmd
  | capture
  | aim (enabled : Bool)
  deriving DecidableEq

/-- Number of capture commands `'< >'` in a command list. -/
def captureCount (l : List WireCmd) : Nat :=
  (l.filter (fun c => c == WireCmd.capture)).length

/-- `V430F_Driver.triggerCapture` (scanner.ts:113-129), run to completion:
no-op while `_captureTimeout` is truthy; otherwise connects if needed, writes
`'< >'` and stores the watchdog handle in `_captureTimeout`. -/
def triggerCapture (s : DriverState) : DriverState × List WireCmd :=
  if s.captureTimeoutSet then (s, [])
  else ({ connected := true, captureTimeoutSet := true, targetPattern := s.targetPattern },
        [WireCmd.capture])

/-- `V430F_Driver.setTargetPattern` (scanner.ts:73-85), run to completion:
no-op if `_targetPattern` already loosely equals `enabled` (JS `null == b` is
false for booleans) or if `_captureTimeout` is truthy; otherwise connects if
needed, records the new value and writes the indicator command. -/
def setTargetPattern (s : DriverState) (enabled : Bool) : DriverState × List WireCmd :=
  if s.targetPattern = some enabled then (s, [])
  else if s.captureTimeoutSet then (s, [])
  else ({ connected := true, captureTimeoutSet := s.captureTimeoutSet,
          targetPattern := some enabled },
        [WireCmd.aim enabled])

/-- Result of one run of the inbound-data handler: `preDownload` is the
driver state at the `await this.downloadImage(1)` suspension point
(scanner.ts:233, success path only), `final` the state when the handler
finishes or aborts, `cmds` the commands written, and `crashed` whether a JS
exception escaped the decode. -/
structure HandlerResult where
  preDownload : Option DriverState
  final : DriverState
  cmds : List WireCmd
  crashed : Bool
  deriving DecidableEq

/-- `V430F_Driver.captureResult` (scanner.ts:131-237), run to completion.
`clearTimeout` (scanner.ts:135) disarms the watchdog but leaves the
`_captureTimeout` field non-null; the field is nulled on the failure path
at once (scanner.ts:139) and on the success path only after the image
download (scanner.ts:236).  On a decode exception the handler aborts with
the field still set.  The buzzer, filesystem writes and HTTP notification
are external effects outside the model. -/
def captureResult (s : DriverState) (data : List Char) : HandlerResult :=
  if isFailureBuf data then
    { preDownload := none
      final := { s with captureTimeoutSet := false }
      cmds := []
      crashed := false }
  else
    match runSegments emptyFields (segFields data) with
    | none => { preDownload := none, final := s, cmds := [], crashed := true }
    | some _ =>
        let r := setTargetPattern s false
        { preDownload := some r.1
          final := { r.1 with captureTimeoutSet := false }
          cmds := r.2
          crashed := false }

/-- Threshold `THRESHOLD_DISTANCE_MM` (scanner.ts:28). -/
def THRESHOLD_DISTANCE_MM : ℚ := 50

/-- Threshold `THRESHOLD_MAX_DEVIATION` (scanner.ts:29). -/
def THRESHOLD_MAX_DEVIATION : ℚ := 1

/-- Sum of a measurement window (the `sum` accumulator of scanner.ts:251). -/
def sumOf (l : List ℚ) : ℚ := l.foldl (fun a x => a + x) 0

/-- Sum of squares of a measurement window (the `sumsq` accumulator of
scanner.ts:252). -/
def sumSqOf (l : List ℚ) : ℚ := l.foldl (fun a x => a + x * x) 0

/-- The pair `(avg, sumsq/n - avg*avg)` of scanner.ts:254-255; the source
reports `Math.sqrt` of the second component as the standard deviation. -/
def statsOf (l : List ℚ) : ℚ × ℚ :=
  (sumOf l / (l.length : ℚ),
   sumSqOf l / (l.length : ℚ) - (sumOf l / (l.length : ℚ)) * (sumOf l / (l.length : ℚ)))

/-- The window bookkeeping of `timedReportCallback` (scanner.ts:244-260):
push the sample; with fewer than five samples report nothing; otherwise
compute the statistics over the current window and then evict the oldest
sample (`lastMeasures.splice(0, 1)`). -/
def ingest (lastMeasures : List ℚ) (sample : ℚ) : List ℚ × Option (ℚ × ℚ) :=
  let w := lastMeasures ++ [sample]
  if w.length < 5 then (w, none) else (w.drop 1, some (statsOf w))

/-- The `lastMeasures` window left after feeding a whole sample sequence to
`ingest`, starting from the empty initial window (scanner.ts:32). -/
def windowAfter (samples : List ℚ) : List ℚ :=
  samples.foldl (fun w x => (ingest w x).1) []

/-- The three commands `timedReportCallback` can issue, plus the implicit
fourth outcome in which no branch is taken (scanner.ts:261-267). -/
inductive TriggerAction
  | fire
  | arm
  | disarm
  | noAction
  deriving DecidableEq

/-- The decision chain of scanner.ts:261-267 on a reported
`(avg, stddev)` pair. -/
def triggerDecision (avg stddev : ℚ) : TriggerAction :=
  if avg < THRESHOLD_DISTANCE_MM ∧ stddev < THRESHOLD_MAX_DEVIATION then TriggerAction.fire
  else if avg < THRESHOLD_DISTANCE_MM ∨ stddev > THRESHOLD_MAX_DEVIATION then TriggerAction.arm
  else if avg > THRESHOLD_DISTANCE_MM ∧ stddev < THRESHOLD_MAX_DEVIATION then
    TriggerAction.disarm
  else TriggerAction.noAction

/-- While `_captureTimeout` is truthy, `triggerCapture` returns without
touching the state or the socket (scanner.ts:116). -/
theorem triggerCapture_pending {s : DriverState} (h : s.captureTimeoutSet = true) :
    triggerCapture s = (s, []) := by
  simp [triggerCapture, h]

/-- While `_captureTimeout` is truthy, `setTargetPattern` returns without
touching the state or the socket (scanner.ts:75-76). -/
theorem setTargetPattern_pending {s : DriverState} (h : s.captureTimeoutSet = true)
    (b : Bool) : setTargetPattern s b = (s, []) := by
  by_cases hp : s.targetPattern = some b <;> simp [setTargetPattern, hp, h]

/-- C1 (amended): two consecutive `triggerCapture` calls with no result and
no watchdog expiry in between leave exactly one capture request pending, the
second call is a no-op, and the capture command is written at most once —
exactly once when no request was pending before the first call, zero times
when one already was. -/
theorem C1_trigger_at_most_once (s : DriverState) :
    (triggerCapture s).1.captureTimeoutSet = true ∧
    triggerCapture (triggerCapture s).1 = ((triggerCapture s).1, []) ∧
    captureCount ((triggerCapture s).2 ++ (triggerCapture (triggerCapture s).1).2) =
      (if s.captureTimeoutSet = true then 0 else 1) := by
  cases h : s.captureTimeoutSet <;> simp [triggerCapture, captureCount, h]

/-- C1 counterexample: from the Connected-AwaitingResult state (a capture
request already pending), two consecutive `triggerCapture` calls send the
capture command zero times, not exactly once as the claim states for every
session state. -/
theorem C1_counterexample :
    captureCount
        ((triggerCapture ⟨true, true, none⟩).2 ++
          (triggerCapture (triggerCapture (⟨true, true, none⟩ : DriverState)).1).2) = 0 ∧
    captureCount
        ((triggerCapture ⟨true, true, none⟩).2 ++
          (triggerCapture (triggerCapture (⟨true, true, none⟩ : DriverState)).1).2) ≠ 1 := by
  decide

/-- C2 (amended): on every inbound data event received while a capture
request is pending, the handler writes no aim-indicator command and leaves
the recorded aim state unchanged: the failure path returns before the
`setTargetPattern(false)` call, and on the success path that call is a no-op
because the `_captureTimeout` field is still non-null when it runs. -/
theorem C2_no_aim_off (s : DriverState) (data : List Char)
    (h : s.captureTimeoutSet = true) :
    (captureResult s data).cmds = [] ∧
    (captureResult s data).final.targetPattern = s.targetPattern := by
  unfold captureResult
  split
  · exact ⟨rfl, rfl⟩
  · rcases hr : runSegments emptyFields (segFields data) with _ | p
    · simp
    · simp [setTargetPattern_pending h false]

/-- C2 witness: a concrete pending, aim-on state and a concrete NOREAD
buffer instantiating the amended C2 theorem. -/
theorem C2_witness :
    (captureResult ⟨true, true, some true⟩ (chars "NOREAD")).cmds = [] ∧
    (captureResult ⟨true, true, some true⟩ (chars "NOREAD")).final.targetPattern =
      some true :=
  C2_no_aim_off ⟨true, true, some true⟩ (chars "NOREAD") rfl

/-- C2 counterexample: with a capture pending and the aim indicator
commanded on, neither the failure buffer `NOREAD` nor the successful buffer
`1P123` makes the handler command the aim indicator off — no aim command is
written and the recorded aim state stays on, contradicting the claim that
`setAimIndicator(false)` takes effect on every inbound event. -/
theorem C2_counterexample :
    (captureResult ⟨true, true, some true⟩ (chars "NOREAD")).cmds = [] ∧
    (captureResult ⟨true, true, some true⟩ (chars "NOREAD")).final.targetPattern =
        some true ∧
    (captureResult ⟨true, true, some true⟩ (chars "1P123")).cmds = [] ∧
    (captureResult ⟨true, true, some true⟩ (chars "1P123")).final.targetPattern =
        some true ∧
    okFields (decodeBuffer (chars "1P123")) ≠ none := by
  decide

/-- C10: while a capture request is pending, an inbound result that decodes
without an exception keeps the `_captureTimeout` field non-null up to the
`await downloadImage` suspension point — so `triggerCapture` and every
`setTargetPattern` call made during result processing (the handler's own
`setTargetPattern(false)` included) are no-ops — and the field is nulled
only after the download; the failure path instead nulls it immediately and
never reaches the download. -/
theorem C10_pending_through_download (s : DriverState) (data : List Char)
    (h : s.captureTimeoutSet = true) :
    ((captureResult s data).crashed = false → isFailureBuf data = false →
      (captureResult s data).preDownload = some s ∧
      s.captureTimeoutSet = true ∧
      triggerCapture s = (s, []) ∧
      (∀ b, setTargetPattern s b = (s, [])) ∧
      (captureResult s data).final.captureTimeoutSet = false ∧
      (captureResult s data).cmds = []) ∧
    (isFailureBuf data = true →
      (captureResult s data).preDownload = none ∧
      (captureResult s data).final.captureTimeoutSet = false) := by
  unfold captureResult
  cases hf : isFailureBuf data
  · rcases hr : runSegments emptyFields (segFields data) with _ | p
    · simp
    · simp [setTargetPattern_pending h false, h, triggerCapture_pending h,
        fun b => setTargetPattern_pending h b]
  · simp

/-- C10 witness: a concrete pending state and buffer instantiating the C10
theorem on the successful-decode path. -/
theorem C10_witness :
    (captureResult ⟨true, true, some true⟩ (chars "1P123")).preDownload =
        some ⟨true, true, some true⟩ ∧
    triggerCapture (⟨true, true, some true⟩ : DriverState) =
        (⟨true, true, some true⟩, []) ∧
    setTargetPattern (⟨true, true, some true⟩ : DriverState) false =
        (⟨true, true, some true⟩, []) ∧
    (captureResult ⟨true, true, some true⟩ (chars "1P123")).final.captureTimeoutSet =
        false := by
  have h := (C10_pending_through_download ⟨true, true, some true⟩ (chars "1P123") rfl).1
      (by decide) (by decide)
  exact ⟨h.1, h.2.2.1, h.2.2.2.1 false, h.2.2.2.2.1⟩

/-- C4: the decision chain fires exactly when `avg < 50` and `stddev < 1`;
otherwise arms exactly when `avg < 50` or `stddev > 1`; otherwise disarms
exactly when `avg > 50` and `stddev < 1`; and otherwise (only at exact
threshold equality) takes no action, in strict priority order. -/
theorem C4_priority_order (m sd : ℚ) :
    (triggerDecision m sd = TriggerAction.fire ↔ m < 50 ∧ sd < 1) ∧
    (triggerDecision m sd = TriggerAction.arm ↔
      ¬(m < 50 ∧ sd < 1) ∧ (m < 50 ∨ 1 < sd)) ∧
    (triggerDecision m sd = TriggerAction.disarm ↔
      ¬(m < 50 ∧ sd < 1) ∧ ¬(m < 50 ∨ 1 < sd) ∧ (50 < m ∧ sd < 1)) ∧
    (triggerDecision m sd = TriggerAction.noAction ↔
      ¬(m < 50 ∧ sd < 1) ∧ ¬(m < 50 ∨ 1 < sd) ∧ ¬(50 < m ∧ sd < 1)) := by
  unfold triggerDecision THRESHOLD_DISTANCE_MM THRESHOLD_MAX_DEVIATION
  split_ifs with h1 h2 h3 <;> simp_all

/-- Feeding one more sample is one step of the fold defining `windowAfter`. -/
theorem windowAfter_append (xs : List ℚ) (x : ℚ) :
    windowAfter (xs ++ [x]) = (ingest (windowAfter xs) x).1 := by
  simp [windowAfter, List.foldl_append]

/-- The window kept by `timedReportCallback` is always the (at most four)
most recent samples: eviction after each report keeps exactly the last four
once five samples have been seen. -/
theorem windowAfter_eq (xs : List ℚ) : windowAfter xs = xs.drop (xs.length - 4) := by
  induction xs using List.reverseRecOn with
  | nil => rfl
  | append_singleton xs x ih =>
      rw [windowAfter_append, ih]
      simp only [ingest]
      have hx : ([x] : List ℚ).length = 1 := rfl
      by_cases h : xs.length ≤ 3
      · have h0 : xs.length - 4 = 0 := by omega
        simp only [h0, List.drop_zero]
        have hlt : (xs ++ [x]).length < 5 := by
          rw [List.length_append, hx]; omega
        rw [if_pos hlt]
        show xs ++ [x] = (xs ++ [x]).drop ((xs ++ [x]).length - 4)
        have h4 : (xs ++ [x]).length - 4 = 0 := by
          rw [List.length_append, hx]; omega
        rw [h4, List.drop_zero]
      · have hlen : (xs.drop (xs.length - 4)).length = 4 := by
          rw [List.length_drop]; omega
        have hlt : ¬((xs.drop (xs.length - 4) ++ [x]).length < 5) := by
          rw [List.length_append, hlen, hx]; omega
        rw [if_neg hlt]
        have hsw : (xs ++ [x]).drop (xs.length - 4) = xs.drop (xs.length - 4) ++ [x] := by
          rw [List.drop_append_eq_append_drop]
          have hz : xs.length - 4 - xs.length = 0 := by omega
          rw [hz]
          rfl
        have he : (xs ++ [x]).length - 4 = xs.length - 4 + 1 := by
          rw [List.length_append, hx]; omega
        rw [← hsw, List.drop_drop, he]

/-- C5: the measurement window never holds more than five samples (at most
four persist between callbacks, five transiently inside one), nothing is
reported before five samples have arrived, and each reported statistics pair
is computed by `statsOf` over exactly the five most recent samples, newest
included — so from the sixth sample on, the oldest sample no longer
contributes. -/
theorem C5_window_five_most_recent (xs : List ℚ) (x : ℚ) :
    (windowAfter xs).length ≤ 5 ∧
    (xs.length < 4 → (ingest (windowAfter xs) x).2 = none) ∧
    (4 ≤ xs.length →
      ((xs ++ [x]).drop (xs.length - 4)).length = 5 ∧
      ingest (windowAfter xs) x =
        (((xs ++ [x]).drop (xs.length - 4)).drop 1,
          some (statsOf ((xs ++ [x]).drop (xs.length - 4))))) := by
  have hx : ([x] : List ℚ).length = 1 := rfl
  have hsw : xs.length - 4 ≤ xs.length → (xs ++ [x]).drop (xs.length - 4) =
      xs.drop (xs.length - 4) ++ [x] := by
    intro _
    rw [List.drop_append_eq_append_drop]
    have hz : xs.length - 4 - xs.length = 0 := by omega
    rw [hz]
    rfl
  refine ⟨?_, ?_, ?_⟩
  · rw [windowAfter_eq, List.length_drop]
    omega
  · intro h
    rw [windowAfter_eq]
    simp only [ingest]
    have hlt : (xs.drop (xs.length - 4) ++ [x]).length < 5 := by
      rw [List.length_append, List.length_drop, hx]; omega
    rw [if_pos hlt]
  · intro h
    have hL : ((xs ++ [x]).drop (xs.length - 4)).length = 5 := by
      rw [hsw (by omega), List.length_append, List.length_drop, hx]; omega
    refine ⟨hL, ?_⟩
    rw [windowAfter_eq]
    simp only [ingest]
    rw [← hsw (by omega)]
    have hlt : ¬(((xs ++ [x]).drop (xs.length - 4)).length < 5) := by
      rw [hL]; omega
    rw [if_neg hlt]

/-- C5 witness: after the five samples 10,20,30,40,50, ingesting 60 reports
the statistics of the five most recent samples 20..60 — the first sample 10
no longer contributes — and keeps the four most recent ones. -/
theorem C5_witness :
    ingest (windowAfter [10, 20, 30, 40, 50]) 60 = ([30, 40, 50, 60], some (40, 200)) := by
  have h := (C5_window_five_most_recent [10, 20, 30, 40, 50] 60).2.2 (by decide)
  rw [h.2]
  norm_num [statsOf, sumOf, sumSqOf]

/-- Helper: an if-then-else of options with no `none` leaf is not `none`. -/
theorem ite_option_ne_none {c : Prop} [Decidable c] {α : Type} {x y : Option α}
    (hx : x ≠ none) (hy : y ≠ none) : (if c then x else y) ≠ none := by
  by_cases hc : c
  · rw [if_pos hc]; exact hx
  · rw [if_neg hc]; exact hy

/-- The only way one segment makes the decode raise is the `GWCR` rule with
a pipe-split of fewer than four parts (`parts[3]` is `undefined`); every
other branch of the chain assigns and returns normally. -/
theorem writesOf_none_iff (f : Fields) (s : List Char) :
    writesOf f s = none ↔ cGWCR s = true ∧ (splitBar s []).length < 4 := by
  constructor
  · intro h
    unfold writesOf at h
    by_cases hc : cGWCR s
    · rw [if_pos hc] at h
      refine ⟨hc, ?_⟩
      rcases hl : splitBar s [] with _ | ⟨p0, _ | ⟨p1, _ | ⟨p2, _ | ⟨p3, rest⟩⟩⟩⟩
      · simp only [List.length_nil]; omega
      · simp only [List.length_cons, List.length_nil]; omega
      · simp only [List.length_cons, List.length_nil]; omega
      · simp only [List.length_cons, List.length_nil]; omega
      · rw [hl] at h
        exact Option.noConfusion h
    · rw [if_neg hc] at h
      exact absurd h (by
        repeat' apply ite_option_ne_none
        all_goals exact Option.some_ne_none _)
  · rintro ⟨hc, hlen⟩
    unfold writesOf
    rw [if_pos hc]
    rcases hl : splitBar s [] with _ | ⟨p0, _ | ⟨p1, _ | ⟨p2, _ | ⟨p3, rest⟩⟩⟩⟩
    · rfl
    · rfl
    · rfl
    · rfl
    · rw [hl] at hlen
      simp only [List.length_cons] at hlen
      omega

/-- The decode loop aborts on an exception exactly when some segment of the
list is a `GWCR` segment with fewer than four pipe-separated parts. -/
theorem runSegments_none_iff (segs : List (List Char)) : ∀ f : Fields,
    runSegments f segs = none ↔
      ∃ s ∈ segs, cGWCR s = true ∧ (splitBar s []).length < 4 := by
  induction segs with
  | nil => intro f; simp [runSegments]
  | cons s rest ih =>
      intro f
      rw [runSegments]
      rcases hw : writesOf f s with _ | w
      · have hcr := (writesOf_none_iff f s).1 hw
        simp [hcr]
      · have hncr : ¬(cGWCR s = true ∧ (splitBar s []).length < 4) := by
          intro hcr
          rw [(writesOf_none_iff f s).2 hcr] at hw
          exact Option.noConfusion hw
        rcases hr : runSegments (applyWrites f w) rest with _ | p
        · have := (ih (applyWrites f w)).1 hr
          simp [hr, this]
        · have : ¬(runSegments (applyWrites f w) rest = none) := by
            rw [hr]; exact Option.noConfusion
          have hrest := (ih (applyWrites f w)).not.1 this
          simp only [hr, Option.map_some, List.mem_cons]
          constructor
          · intro hfalse; exact Option.noConfusion hfalse
          · rintro ⟨t, ht | ht, hcrt⟩
            · exact absurd (ht ▸ hcrt) hncr
            · exact absurd ⟨t, ht, hcrt⟩ hrest

/-- C3 (amended): the decode raises if and only if the buffer is not an
empty/NOREAD failure and some segment starts with `GWCR` and pipe-splits
into fewer than four parts; on every other input it terminates with either
the failure result or a field mapping. -/
theorem C3_crash_characterization (data : List Char) :
    decodeBuffer data = DecodeOutcome.crash ↔
      isFailureBuf data = false ∧
        ∃ s ∈ segFields data, cGWCR s = true ∧ (splitBar s []).length < 4 := by
  unfold decodeBuffer
  cases h : isFailureBuf data
  · rw [if_neg (by simp [h])]
    rw [← runSegments_none_iff (segFields data) emptyFields]
    rcases hr : runSegments emptyFields (segFields data) with _ | ⟨f, ws⟩ <;> simp [hr]
  · rw [if_pos (by simp [h])]
    simp [h]

/-- C3 counterexample: the buffer consisting of the single segment `GWCR`
(one pipe part, fewer than four) makes the decode raise a `TypeError`
instead of returning a result, contradicting the claim that the parsing
step never raises. -/
theorem C3_counterexample :
    decodeBuffer (chars "GWCR") = DecodeOutcome.crash ∧
    cGWCR (chars "GWCR") = true ∧ (splitBar (chars "GWCR") []).length < 4 := by
  decide

/-- C7 (amended): the decode is a failure (empty field mapping, no rule
evaluation) if and only if the trimmed buffer is empty or the trimmed buffer
contains the text `NOREAD` as a substring — anywhere, not only as a whole
segment; in particular a buffer of `NOREAD` alone, with or without trailing
control bytes, is a failure. -/
theorem C7_failure_characterization (data : List Char) :
    decodeBuffer data = DecodeOutcome.failure ↔
      (jsTrim data = [] ∨ containsSeq (chars "NOREAD") (jsTrim data) = true) := by
  unfold decodeBuffer
  cases h : isFailureBuf data
  · have h' : ¬(jsTrim data = [] ∨ containsSeq (chars "NOREAD") (jsTrim data) = true) := by
      simpa [isFailureBuf] using h
    rw [if_neg (by simp [h])]
    rcases hr : runSegments emptyFields (segFields data) with _ | ⟨f, ws⟩ <;> simp [hr, h']
  · have h' : jsTrim data = [] ∨ containsSeq (chars "NOREAD") (jsTrim data) = true := by
      simpa [isFailureBuf] using h
    rw [if_pos (by simp [h])]
    simp [h']

/-- C7 counterexample: the single-segment buffer `1PNOREADX` is not empty
after trimming and no segment equals `NOREAD`, yet the decode is a failure,
because the code tests `result.indexOf('NOREAD') >= 0` — substring
containment over the whole trimmed buffer — not segment equality. -/
theorem C7_counterexample :
    decodeBuffer (chars "1PNOREADX") = DecodeOutcome.failure ∧
    jsTrim (chars "1PNOREADX") ≠ [] ∧
    segFields (chars "1PNOREADX") = [chars "1PNOREADX"] ∧
    chars "1PNOREADX" ≠ chars "NOREAD" := by
  decide

/-- Assigning one key changes exactly that key's slot. -/
theorem getField_setField (f : Fields) (k k' : FieldKey) (v : List Char) :
    getField (setField f k' v) k = if k = k' then some v else getField f k := by
  cases k <;> cases k' <;> simp [getField, setField]

/-- The empty mapping has no entry for any key. -/
theorem getField_empty (k : FieldKey) : getField emptyFields k = none := by
  cases k <;> rfl

/-- Applying a write trace makes each key hold the value of its last write,
keeping the previous value for keys the trace never writes. -/
theorem applyWrites_getField (ws : List (FieldKey × List Char)) :
    ∀ (f : Fields) (k : FieldKey),
      getField (applyWrites f ws) k =
        match lastWrite ws k with
        | some v => some v
        | none => getField f k := by
  induction ws with
  | nil => intro f k; rfl
  | cons w ws ih =>
      intro f k
      have step : applyWrites f (w :: ws) = applyWrites (setField f w.1 w.2) ws := rfl
      rw [step, ih, lastWrite]
      rcases hl : lastWrite ws k with _ | v
      · rw [getField_setField]
        by_cases hk : w.1 = k
        · simp [hk]
        · have hk' : ¬(k = w.1) := fun hkk => hk hkk.symm
          simp [hk, hk']
      · rfl

/-- A successful run of the segment loop produces exactly the mapping
obtained by applying its own write trace to the initial mapping. -/
theorem runSegments_fields_eq (segs : List (List Char)) :
    ∀ (f f' : Fields) (ws : List (FieldKey × List Char)),
      runSegments f segs = some (f', ws) → f' = applyWrites f ws := by
  induction segs with
  | nil =>
      intro f f' ws h
      rw [runSegments] at h
      injection h with h'
      injection h' with h1 h2
      subst h1
      subst h2
      rfl
  | cons s rest ih =>
      intro f f' ws h
      rw [runSegments] at h
      revert h
      rcases hw : writesOf f s with _ | w
      · intro h
        exact Option.noConfusion h
      · intro h
        replace h : Option.map (fun p => (p.1, w ++ p.2))
            (runSegments (applyWrites f w) rest) = some (f', ws) := h
        rcases hr : runSegments (applyWrites f w) rest with _ | ⟨f2, ws2⟩
        · rw [hr] at h
          exact Option.noConfusion h
        · rw [hr] at h
          replace h : ((f2, w ++ ws2) : Fields × List (FieldKey × List Char)) = (f', ws) :=
            Option.some.inj h
          injection h with h1 h2
          subst h1
          subst h2
          have hfold : applyWrites f (w ++ ws2) = applyWrites (applyWrites f w) ws2 := by
            simp [applyWrites, List.foldl_append]
          rw [hfold]
          exact ih (applyWrites f w) f2 ws2 hr

/-- Helper: a property of options holding at both leaves of an if-then-else
holds of it. -/
theorem ite_option_elim {c : Prop} [Decidable c] {α : Type} {x y : Option α}
    (P : Option α → Prop) (hx : P x) (hy : P y) : P (if c then x else y) := by
  by_cases hc : c
  · rwa [if_pos hc]
  · rwa [if_neg hc]

/-- Each single segment writes pairwise-distinct keys: within one segment,
every key — `unknown` included — is assigned at most once. -/
theorem writesOf_keys_nodup (f : Fields) (s : List Char)
    (ws : List (FieldKey × List Char)) (h : writesOf f s = some ws) :
    (ws.map Prod.fst).Nodup := by
  revert h
  unfold writesOf
  rcases hl : splitBar s [] with _ | ⟨p0, _ | ⟨p1, _ | ⟨p2, _ | ⟨p3, rest⟩⟩⟩⟩ <;>
    repeat' refine ite_option_elim (fun o => o = some ws → (ws.map Prod.fst).Nodup) ?_ ?_
  all_goals intro h
  all_goals first
    | exact Option.noConfusion h
    | (injection h with h'; subst h'; simp)

/-- C6 (amended): within a single segment each key — `unknown` included — is
assigned at most once (each rule writes pairwise-distinct keys), but across
the segments of one decode any key, not only `unknown`, may be assigned
again; the final mapping holds the last written value of every key. -/
theorem C6_per_segment_once_last_write_wins :
    (∀ (f : Fields) (s : List Char) (ws : List (FieldKey × List Char)),
        writesOf f s = some ws → (ws.map Prod.fst).Nodup) ∧
    (∀ (data : List Char) (f : Fields) (ws : List (FieldKey × List Char)),
        decodeBuffer data = DecodeOutcome.ok f ws →
          ∀ k, getField f k = lastWrite ws k) := by
  constructor
  · exact writesOf_keys_nodup
  · intro data f ws h k
    unfold decodeBuffer at h
    by_cases hf : isFailureBuf data
    · rw [if_pos hf] at h
      exact DecodeOutcome.noConfusion h
    · rw [if_neg hf] at h
      revert h
      rcases hr : runSegments emptyFields (segFields data) with _ | ⟨f2, ws2⟩
      · intro h
        exact DecodeOutcome.noConfusion h
      · intro h
        replace h : DecodeOutcome.ok f2 ws2 = DecodeOutcome.ok f ws := h
        injection h with h1 h2
        subst h1
        subst h2
        rw [runSegments_fields_eq (segFields data) emptyFields f2 ws2 hr]
        rw [applyWrites_getField]
        rcases hl : lastWrite ws2 k with _ | v
        · exact getField_empty k
        · rfl

/-- C6 counterexample: in the decode of the two-segment buffer
`1Pfoo`(GS)`1Pbar`, the key `mfg_pn` — which is not `unknown` — is assigned
twice, the second write overwriting the first, contradicting the claim that
every key other than `unknown` is set at most once per decode. -/
theorem C6_counterexample :
    okWrites (decodeBuffer (chars "1Pfoo\x1d1Pbar")) =
        [(FieldKey.mfg_pn, chars "foo"), (FieldKey.mfg_pn, chars "bar")] ∧
    ((okWrites (decodeBuffer (chars "1Pfoo\x1d1Pbar"))).filter
        (fun w => w.1 == FieldKey.mfg_pn)).length = 2 ∧
    (okFields (decodeBuffer (chars "1Pfoo\x1d1Pbar"))).map Fields.mfg_pn =
        some (some (chars "bar")) ∧
    FieldKey.mfg_pn ≠ FieldKey.unknown := by
  decide

/-- C6 witness: concrete instantiation of the amended C6 theorem on the
single-segment buffer `1P123`. -/
theorem C6_witness :
    (([(FieldKey.mfg_pn, chars "123")] : List (FieldKey × List Char)).map Prod.fst).Nodup ∧
    getField (applyWrites emptyFields [(FieldKey.mfg_pn, chars "123")]) FieldKey.mfg_pn =
        some (chars "123") := by
  constructor
  · exact C6_per_segment_once_last_write_wins.1 emptyFields (chars "1P123")
      [(FieldKey.mfg_pn, chars "123")] (by decide)
  · have h := C6_per_segment_once_last_write_wins.2 (chars "1P123")
      (applyWrites emptyFields [(FieldKey.mfg_pn, chars "123")])
      [(FieldKey.mfg_pn, chars "123")] (by decide) FieldKey.mfg_pn
    rw [h]
    decide

/-- C8: evaluation of the code at the failing input. In the decode of
`K`(GS)`4K123` the Digi-Key sentinel is set, the segment `4K123` has first
two characters `4K` and length greater than 2, yet the decode leaves
`line_no` unset and drops the segment entirely: the guard compares the
three-character slice `4K1` against the two-character literal `4K`
(scanner.ts:197), so it can match only the exact two-character segment
`4K`, for which it stores the empty remainder. -/
theorem C8_4K_guard_never_matches :
    decodeBuffer (chars "K\x1d4K123") =
        DecodeOutcome.ok (setField emptyFields FieldKey.distributor (chars "Digi-Key"))
          [(FieldKey.distributor, chars "Digi-Key")] ∧
    (setField emptyFields FieldKey.distributor (chars "Digi-Key")).line_no = none ∧
    (chars "4K123").take 2 = chars "4K" ∧
    2 < (chars "4K123").length ∧
    cDK4K (chars "4K123") = false ∧
    decodeBuffer (chars "K\x1d4K") =
        DecodeOutcome.ok
          (applyWrites emptyFields
            [(FieldKey.distributor, chars "Digi-Key"), (FieldKey.line_no, [])])
          [(FieldKey.distributor, chars "Digi-Key"), (FieldKey.line_no, [])] := by
  decide

/-- C9 (amended): a segment matching none of rules 1-12 is handled by the
Digi-Key context branch whenever the distributor sentinel is set in the
current decode; if it then matches none of that context's guards it is
silently dropped — no assignment at all, not even to `unknown` — and rules
14, 15 and the `unknown` fallback are unreachable; only when the sentinel is
not set does a segment matching no rule get stored verbatim under
`unknown`. -/
theorem C9_digikey_context_drops (f : Fields) (s : List Char)
    (h1 : cGWCR s = false) (h2 : cSig s = false) (h3 : c1P s = false)
    (h4 : c1V s = false) (h5 : c1T s = false) (h6 : c4L s = false)
    (h7 : cP s = false) (h8 : cQ s = false) (h9 : cS s = false)
    (h10 : cD2 s = false) (h11 : cD3 s = false) (h12 : cK s = false) :
    (cDK f = true →
      cDK1K s = false → cDK4K s = false → cDK10K s = false → cDK11K s = false →
      cDK11Z s = false → cDK12Z s = false → cDK13Z s = false →
      writesOf f s = some []) ∧
    (cDK f = false → c11K s = false → c14K s = false →
      writesOf f s = some [(FieldKey.unknown, s)]) := by
  constructor
  · intro hdk k1 k4 k10 k11 z11 z12 z13
    simp only [writesOf, h1, h2, h3, h4, h5, h6, h7, h8, h9, h10, h11, h12, hdk,
      k1, k4, k10, k11, z11, z12, z13, Bool.false_eq_true, if_false, if_true]
    split <;> rfl
  · intro hdk hk11 hk14
    simp only [writesOf, h1, h2, h3, h4, h5, h6, h7, h8, h9, h10, h11, h12, hdk,
      hk11, hk14, Bool.false_eq_true, if_false]

/-- C9 witness: with the Digi-Key sentinel set, the no-rule segment `hello`
is dropped without any assignment; without the sentinel the same segment is
stored under `unknown`. -/
theorem C9_witness :
    writesOf (setField emptyFields FieldKey.distributor (chars "Digi-Key"))
        (chars "hello") = some [] ∧
    writesOf emptyFields (chars "hello") = some [(FieldKey.unknown, chars "hello")] := by
  constructor
  · exact (C9_digikey_context_drops
      (setField emptyFields FieldKey.distributor (chars "Digi-Key")) (chars "hello")
      (by decide) (by decide) (by decide) (by decide) (by decide) (by decide)
      (by decide) (by decide) (by decide) (by decide) (by decide) (by decide)).1
      (by decide) (by decide) (by decide) (by decide) (by decide) (by decide)
      (by decide) (by decide)
  · exact (C9_digikey_context_drops emptyFields (chars "hello")
      (by decide) (by decide) (by decide) (by decide) (by decide) (by decide)
      (by decide) (by decide) (by decide) (by decide) (by decide) (by decide)).2
      (by decide) (by decide) (by decide)

/-- C9 counterexample: the buffer `K`(GS)`hello` sets the Digi-Key sentinel
and then processes `hello`, which matches no rule; the claim says it must be
stored verbatim under `unknown`, but the decode leaves `unknown` unset —
while the same segment alone, without the sentinel, does land in `unknown`. -/
theorem C9_counterexample :
    decodeBuffer (chars "K\x1dhello") =
        DecodeOutcome.ok (setField emptyFields FieldKey.distributor (chars "Digi-Key"))
          [(FieldKey.distributor, chars "Digi-Key")] ∧
    (setField emptyFields FieldKey.distributor (chars "Digi-Key")).unknown = none ∧
    decodeBuffer (chars "hello") =
        DecodeOutcome.ok (setField emptyFields FieldKey.unknown (chars "hello"))
          [(FieldKey.unknown, chars "hello")] := by
  decide
